import Mathlib

/-!
Shallow embedding of `src/scripts/sync-org-repositories.py` (the org-infra
repository-standards sync script).

Conventions used throughout:
* Python strings are Lean `String`s; where pattern matching over the
  characters is needed we work on `String.data : List Char`.
* The network is an oracle `Net : endpoint → method → payload → (status, body)`;
  every embedded function that may reach the network also returns the number
  of network requests it performed, so "no network I/O" is expressible.
* File trees (the canonical source tree and a cloned repository's working
  tree) are partial maps `String → Option String` from a path to the file's
  byte content (a `String` stands for the byte sequence; `filecmp.cmp` with
  `shallow=False` is content equality).
* Statuses are `Nat`, exceptions of guarded regions become explicit outcome
  values, and the per-repository `try/except` of `main` becomes the
  `RepoOutcome` sum.
-/

namespace OrgInfra

/-! ### Remote Gateway: `validate_github_api_request` / `github_api_request`

The Python allow-list is five `(regex, method)` pairs checked with
`re.match` (anchored at the start; the trailing `$` in each pattern matches
at the end of the string or just before one final newline; `.` matches any
character other than a newline; `[^/]` matches any character other than a
slash, newline included).  The regexes are embedded exactly, atom by atom:
the literal `GITHUB_API = "https://api.github.com"` contributes two `.`
wildcard atoms, because `.` is unescaped in the Python source. -/

/-- One atom of the anchored portion of a pattern: a literal character or the
`.` wildcard (any character except `'\n'`). -/
inductive PatChar
  | lit (c : Char)
  | dot
deriving DecidableEq, Repr

/-- Match a list of atoms against the front of the input, returning the
remaining input on success (the semantics of the anchored head of
`re.match`). -/
def matchAtoms : List PatChar → List Char → Option (List Char)
  | [], s => some s
  | _ :: _, [] => none
  | PatChar.lit c :: ps, x :: s => if x = c then matchAtoms ps s else none
  | PatChar.dot :: ps, x :: s => if x = '\n' then none else matchAtoms ps s

/-- Match a literal run of characters against the front of the input. -/
def matchLit : List Char → List Char → Option (List Char)
  | [], s => some s
  | _ :: _, [] => none
  | c :: cs, x :: s => if x = c then matchLit cs s else none

/-- Match `[^/]+` when it is followed by a `/`-starting continuation (or by
nothing): since `[^/]` can never consume a slash, the greedy run up to the
first slash is the only possible parse; the remainder (empty or starting
with `'/'`) is returned.  Fails when the run is empty. -/
def matchSeg (s : List Char) : Option (List Char) :=
  let run := s.takeWhile (fun c => c != '/')
  if run.isEmpty then none else some (s.dropWhile (fun c => c != '/'))

/-- The `$` anchor of Python `re` (no MULTILINE): it matches at the end of
the string, or just before a final newline. -/
def endAnchor : List Char → Bool
  | [] => true
  | ['\n'] => true
  | _ => false

/-- `[^/]+$`: a match exists iff the remainder is nonempty and slash-free
(the "`$` before a final newline" case is subsumed, since `'\n' ≠ '/'`). -/
def nonSlashPlusEnd (r : List Char) : Bool :=
  !r.isEmpty && r.all (fun c => c != '/')

/-- `.+$`: a nonempty newline-free run, optionally followed by one final
newline that the `$` anchor absorbs. -/
def dotPlusEnd (r : List Char) : Bool :=
  (!r.isEmpty && r.all (fun c => c != '\n')) ||
    (r.getLast? == some '\n' && !r.dropLast.isEmpty &&
      r.dropLast.all (fun c => c != '\n'))

/-- The atoms of `GITHUB_API = "https://api.github.com"` as they appear
inside each regex: the two unescaped dots are wildcards. -/
def apiBasePat : List PatChar :=
  [.lit 'h', .lit 't', .lit 't', .lit 'p', .lit 's', .lit ':', .lit '/', .lit '/',
   .lit 'a', .lit 'p', .lit 'i', .dot,
   .lit 'g', .lit 'i', .lit 't', .lit 'h', .lit 'u', .lit 'b', .dot,
   .lit 'c', .lit 'o', .lit 'm']

/-- Shared head of patterns 2–5: `^<GITHUB_API>/repos/[^/]+/` — consume the
base, the literal `/repos/`, the owner segment and the slash after it. -/
def matchReposOwner (s : List Char) : Option (List Char) :=
  match matchAtoms apiBasePat s with
  | none => none
  | some r =>
    match matchLit ['/', 'r', 'e', 'p', 'o', 's', '/'] r with
    | none => none
    | some r2 =>
      match matchSeg r2 with
      | none => none
      | some r3 =>
        match r3 with
        | '/' :: r4 => some r4
        | _ => none

/-- `r"^<GITHUB_API>/user$"`. -/
def matchUserPat (s : List Char) : Bool :=
  match matchAtoms apiBasePat s with
  | none => false
  | some r =>
    match matchLit ['/', 'u', 's', 'e', 'r'] r with
    | none => false
    | some r2 => endAnchor r2

/-- `r"^<GITHUB_API>/repos/[^/]+/[^/]+$"`. -/
def matchRepoPat (s : List Char) : Bool :=
  match matchReposOwner s with
  | none => false
  | some r => nonSlashPlusEnd r

/-- `r"^<GITHUB_API>/repos/[^/]+/[^/]+/forks$"`. -/
def matchForksPat (s : List Char) : Bool :=
  match matchReposOwner s with
  | none => false
  | some r =>
    match matchSeg r with
    | none => false
    | some r2 =>
      match matchLit ['/', 'f', 'o', 'r', 'k', 's'] r2 with
      | none => false
      | some r3 => endAnchor r3

/-- `r"^<GITHUB_API>/repos/[^/]+/[^/]+/pulls$"`. -/
def matchPullsPat (s : List Char) : Bool :=
  match matchReposOwner s with
  | none => false
  | some r =>
    match matchSeg r with
    | none => false
    | some r2 =>
      match matchLit ['/', 'p', 'u', 'l', 'l', 's'] r2 with
      | none => false
      | some r3 => endAnchor r3

/-- `r"^<GITHUB_API>/repos/[^/]+/[^/]+/git/refs/heads/.+$"`. -/
def matchDelRefPat (s : List Char) : Bool :=
  match matchReposOwner s with
  | none => false
  | some r =>
    match matchSeg r with
    | none => false
    | some r2 =>
      match matchLit ['/', 'g', 'i', 't', '/', 'r', 'e', 'f', 's', '/',
                      'h', 'e', 'a', 'd', 's', '/'] r2 with
      | none => false
      | some r3 => dotPlusEnd r3

/-- `validate_github_api_request(endpoint, method)`: true iff some
allow-listed `(pattern, method)` pair accepts the request. -/
def validate_github_api_request (endpoint method : String) : Bool :=
  (matchUserPat endpoint.data && method == "GET") ||
  (matchRepoPat endpoint.data && method == "GET") ||
  (matchForksPat endpoint.data && method == "POST") ||
  (matchPullsPat endpoint.data && method == "POST") ||
  (matchDelRefPat endpoint.data && method == "DELETE")

/-- The network oracle: what `requests.request` (wrapped in the
exception-to-synthetic-500 handler of the Python code) would answer for a
given endpoint, method and optional JSON payload. -/
def Net : Type := String → String → Option String → Nat × String

/-- `github_api_request(endpoint, method, data)`: the guardrail rejects any
request failing validation with a synthetic `(403, error)` before any
network access; otherwise exactly one network request is made.  The second
component counts the network requests performed. -/
def github_api_request (net : Net) (endpoint method : String)
    (data : Option String) : (Nat × String) × Nat :=
  if validate_github_api_request endpoint method then
    (net endpoint method data, 1)
  else
    ((403, "Endpoint not allowed"), 0)

/-- `check_fork_exists` keeps only the status test `status == 200` (the
Python function returns `True` on 200 and falls through to `None`, which is
falsy, otherwise). -/
def check_fork_exists (status : Nat) : Bool :=
  status == 200

/-- `create_fork`, applied to the status the forks POST returned: 202
(accepted, async provisioning) and 200 (fork already exists) are success,
everything else is failure. -/
def create_fork (status : Nat) : Bool :=
  status == 202 || status == 200

/-- `create_pull_request`, applied to the status the pulls POST returned:
only 201 is success. -/
def create_pull_request (status : Nat) : Bool :=
  status == 201

/-- `delete_fork_branch(fork_owner, repo_name, branch_name)`: issues a
DELETE for `f"/repos/{fork_owner}/{repo_name}/git/refs/heads/{branch_name}"`
— note the missing `GITHUB_API` base — and reports `status == 204`.  The
second component counts network requests. -/
def delete_fork_branch (net : Net) (fork_owner repo_name branch_name : String) :
    Bool × Nat :=
  let res := github_api_request net
    ("/repos/" ++ fork_owner ++ "/" ++ repo_name ++ "/git/refs/heads/" ++ branch_name)
    "DELETE" none
  (res.1.1 == 204, res.2)

/-! ### File Reconciler: `compare_files` / `sync_file` and the per-file loop
of `sync_repository` (source lines 389–418). -/

/-- One entry of the configuration's `files_to_sync` list: `source` is the
relative path under the canonical source root, `destination` defaults to
`source` when absent (`file_config.get('destination', source_rel_path)`),
and `exclude_repos`, when the key is present, lists repositories the rule
does not apply to. -/
structure FileRule where
  source : String
  destination : Option String
  exclude_repos : Option (List String)
deriving DecidableEq, Repr

/-- `dest_rel_path = file_config.get('destination', source_rel_path)`. -/
def destRel (r : FileRule) : String :=
  r.destination.getD r.source

/-- `'exclude_repos' in file_config and repo_name in file_config['exclude_repos']`. -/
def excludedB (r : FileRule) (repo_name : String) : Bool :=
  match r.exclude_repos with
  | some l => l.contains repo_name
  | none => false

/-- A file tree: path → content of the file at that path, if any. -/
def Tree : Type := String → Option String

/-- Writing one file (`shutil.copy2` of the source content over the
destination path). -/
def updateTree (t : Tree) (p : String) (c : String) : Tree :=
  fun q => if q = p then some c else t q

/-- `compare_files(source_file, dest_file)`: `False` when the destination
does not exist, else byte-for-byte content equality (`filecmp.cmp` with
`shallow=False`). -/
def compare_files (sourceContent : String) (destContent : Option String) : Bool :=
  match destContent with
  | none => false
  | some d => d == sourceContent

/-- `sync_file(source_path, dest_path, ...)`: returns whether the file was
copied (`True`) or already identical (`False`), together with the resulting
tree (`os.makedirs` has no observable effect in this content-level model). -/
def sync_file (sourceContent : String) (dest_path : String) (repoTree : Tree) :
    Bool × Tree :=
  match repoTree dest_path with
  | some _ =>
    if compare_files sourceContent (repoTree dest_path) then
      (false, repoTree)
    else
      (true, updateTree repoTree dest_path sourceContent)
  | none => (true, updateTree repoTree dest_path sourceContent)

/-- The `for file_config in files_to_sync` loop of `sync_repository`
(step 3, lines 390–418): returns `files_changed` and the final working
tree.  A rule whose source is missing from the canonical root is skipped;
a rule excluding the current repository is skipped; in dry-run mode the
destination is classified (missing ⇒ would add, different ⇒ would update,
identical ⇒ up to date) without mutation; otherwise `sync_file` runs and
its `True` results are collected. -/
def processFilesToSync (source_root : Tree) (repo_name : String) (dry_run : Bool) :
    List FileRule → Tree → List String × Tree
  | [], repoTree => ([], repoTree)
  | file_config :: rest, repoTree =>
    match source_root file_config.source with
    | none => processFilesToSync source_root repo_name dry_run rest repoTree
    | some srcContent =>
      if excludedB file_config repo_name then
        processFilesToSync source_root repo_name dry_run rest repoTree
      else
        let dest_path := destRel file_config
        if dry_run then
          match repoTree dest_path with
          | none =>
            let r := processFilesToSync source_root repo_name dry_run rest repoTree
            (dest_path :: r.1, r.2)
          | some destContent =>
            if !compare_files srcContent (some destContent) then
              let r := processFilesToSync source_root repo_name dry_run rest repoTree
              (dest_path :: r.1, r.2)
            else
              processFilesToSync source_root repo_name dry_run rest repoTree
        else
          let s := sync_file srcContent dest_path repoTree
          if s.1 then
            let r := processFilesToSync source_root repo_name dry_run rest s.2
            (dest_path :: r.1, r.2)
          else
            processFilesToSync source_root repo_name dry_run rest s.2

/-- `ruleChangesAt src repo t r p`: rule `r`, evaluated against the original
working tree `t`, produces a changed-file entry for path `p` — its source
exists, it does not exclude the repository, its destination is `p`, and the
tree's content at `p` differs from (or is missing relative to) the source
content.  This is the predicate both run modes are characterised by. -/
def ruleChangesAt (source_root : Tree) (repo_name : String) (repoTree : Tree)
    (r : FileRule) (p : String) : Prop :=
  match source_root r.source with
  | none => False
  | some c => excludedB r repo_name = false ∧ destRel r = p ∧ repoTree p ≠ some c

/-! ### Contribution Driver: `sync_repository` (lines 320–460).

External effects are resolved by a `SyncEnv`: the statuses the two fork
API calls would return, whether the `git clone` subprocess succeeds, whether
the fetch/checkout/reset against upstream succeeds, the tree contents of
the upstream repository and of the fork, whether branch/commit/push
succeeds, and the status of the pulls POST.  The events list records, in
order, which externally visible steps were attempted. -/

inductive SyncEvent
  | forkChecked
  | forkCreateAttempted
  | cloneAttempted
  | branchCommitPushAttempted
  | prCreateAttempted
deriving DecidableEq, Repr

structure SyncEnv where
  /-- The canonical source tree rooted at `source_root`. -/
  sourceTree : Tree
  /-- Status of the GET on `/repos/{fork_owner}/{repo_name}`. -/
  checkForkStatus : Nat
  /-- Status of the POST on `/repos/{org}/{repo_name}/forks`. -/
  createForkStatus : Nat
  /-- Whether `git clone` succeeds (else `subprocess.CalledProcessError`). -/
  cloneOk : Bool
  /-- Whether fetch-upstream / checkout main / hard-reset succeeds. -/
  upstreamSyncOk : Bool
  /-- The upstream repository's tree (cloned in dry-run; the state after a
  successful hard reset otherwise). -/
  upstreamTree : Tree
  /-- The fork's tree as cloned (used when the upstream sync fails). -/
  forkTree : Tree
  /-- Whether `create_branch_and_commit` (checkout -b / add / commit / push)
  succeeds. -/
  pushOk : Bool
  /-- Status of the POST on `/repos/{org}/{repo_name}/pulls`. -/
  prStatus : Nat

/-- The working tree `sync_repository` reconciles against: dry-run clones
upstream directly; a real run clones the fork and hard-resets it to
upstream, falling back to the fork's own state when that sync fails (a
logged warning, not an abort). -/
def clonedTree (env : SyncEnv) (dry_run : Bool) : Tree :=
  if dry_run then env.upstreamTree
  else if env.upstreamSyncOk then env.upstreamTree else env.forkTree

/-- `sync_repository(org, repo_name, fork_owner, config, dry_run)`: returns
the success verdict together with the ordered list of attempted steps.
Mirrors the source: empty `files_to_sync` fails immediately; step 1
(fork check/creation) runs only in non-dry-run mode and a failed creation
returns before any clone; a failed clone fails the attempt; zero changed
files or dry-run return success before any branch/commit/push; a failed
push fails before the PR; otherwise the verdict is the PR creation's. -/
def sync_repository (env : SyncEnv) (repo_name : String)
    (files_to_sync : List FileRule) (dry_run : Bool) : Bool × List SyncEvent :=
  if files_to_sync = [] then
    (false, [])
  else if !dry_run && !check_fork_exists env.checkForkStatus
      && !create_fork env.createForkStatus then
    (false, [SyncEvent.forkChecked, SyncEvent.forkCreateAttempted])
  else
    let preEvents : List SyncEvent :=
      if dry_run then []
      else if check_fork_exists env.checkForkStatus then [SyncEvent.forkChecked]
      else [SyncEvent.forkChecked, SyncEvent.forkCreateAttempted]
    let ev := preEvents ++ [SyncEvent.cloneAttempted]
    if !env.cloneOk then
      (false, ev)
    else
      let files_changed :=
        (processFilesToSync env.sourceTree repo_name dry_run files_to_sync
          (clonedTree env dry_run)).1
      if files_changed = [] then
        (true, ev)
      else if dry_run then
        (true, ev)
      else if !env.pushOk then
        (false, ev ++ [SyncEvent.branchCommitPushAttempted])
      else
        (create_pull_request env.prStatus,
          ev ++ [SyncEvent.branchCommitPushAttempted, SyncEvent.prCreateAttempted])

/-! ### Batch Runner: the repository-list resolution and the per-repository
loop of `main` (lines 487–513). -/

/-- What processing one repository does, seen from the loop of `main`:
either `sync_repository` returns a boolean, or an exception escapes and is
caught by the loop's `except Exception` handler. -/
inductive RepoOutcome
  | ok (success : Bool)
  | raises
deriving DecidableEq, Repr

/-- The `for repo_name in repositories` loop of `main`: every repository is
processed; `success_count` grows exactly on an `ok true` outcome; a raised
exception is caught, logged and the loop continues.  Returns
`(success_count, the repositories processed, in order)`. -/
def runBatch (outcome : String → RepoOutcome) : List String → Nat × List String
  | [] => (0, [])
  | repo_name :: rest =>
    let res := runBatch outcome rest
    match outcome repo_name with
    | RepoOutcome.ok true => (res.1 + 1, repo_name :: res.2)
    | RepoOutcome.ok false => (res.1, repo_name :: res.2)
    | RepoOutcome.raises => (res.1, repo_name :: res.2)

/-- Repository-list resolution in `main` (lines 487–493): an explicit
`--repos` filter applies only when the argument list is non-empty (Python
truthiness of `args.repos`), and the exclusion set is
`config.get('exclude_repos', ['org-infra'])` — the `['org-infra']` default
applies only when the configuration has no `exclude_repos` key. -/
def resolveRepositories (repositories : List String)
    (argsRepos : Option (List String)) (configExclude : Option (List String)) :
    List String :=
  let filtered :=
    match argsRepos with
    | some sel => if sel.isEmpty then repositories
                  else repositories.filter (fun r => sel.contains r)
    | none => repositories
  let excluded_repos := configExclude.getD ["org-infra"]
  filtered.filter (fun r => !excluded_repos.contains r)

/-! ### Concrete inputs used by the witnesses and counterexamples below. -/

/-- An environment whose fork check answers 404 and whose fork creation
answers 500; everything else would succeed. -/
def envC4 : SyncEnv where
  sourceTree := fun _ => none
  checkForkStatus := 404
  createForkStatus := 500
  cloneOk := true
  upstreamSyncOk := true
  upstreamTree := fun _ => none
  forkTree := fun _ => none
  pushOk := true
  prStatus := 201

/-- Like `envC4` but the fork already exists. -/
def envC5 : SyncEnv :=
  { envC4 with checkForkStatus := 200 }

/-- A single file rule whose source is absent from `envC5.sourceTree`. -/
def ruleC5 : FileRule :=
  { source := "CODEOWNERS", destination := none, exclude_repos := none }

/-- The empty working tree. -/
def emptyTree : Tree := fun _ => none

/-- A one-file canonical source tree. -/
def srcC2 : Tree :=
  fun p => if p = "CODEOWNERS" then some "canonical" else none

/-- A working tree already byte-identical to `srcC2` at `CODEOWNERS`. -/
def dstC2 : Tree :=
  fun p => if p = "CODEOWNERS" then some "canonical" else none

/-- The single rule syncing `CODEOWNERS` onto itself. -/
def rulesC2 : List FileRule :=
  [{ source := "CODEOWNERS", destination := none, exclude_repos := none }]

/-- A rule excluded for `repo-a`, aliasing `docs/policy.md`. -/
def ruleC7 : FileRule :=
  { source := "policy.md", destination := some "docs/policy.md",
    exclude_repos := some ["repo-a"] }

/-- A second, non-excluded rule writing the same destination path. -/
def ruleC7b : FileRule :=
  { source := "alt-policy.md", destination := some "docs/policy.md",
    exclude_repos := none }

/-- Sources for both aliasing rules, with different contents. -/
def srcC7 : Tree :=
  fun p => if p = "policy.md" then some "canonical"
    else if p = "alt-policy.md" then some "alternate" else none

/-- A rule whose source path is missing, aliasing `docs/guide.md`. -/
def ruleC8 : FileRule :=
  { source := "missing.md", destination := some "docs/guide.md",
    exclude_repos := none }

/-- A second rule with an existing source, writing the same destination. -/
def ruleC8b : FileRule :=
  { source := "guide.md", destination := some "docs/guide.md",
    exclude_repos := none }

/-- A source tree containing only `guide.md`. -/
def srcC8 : Tree :=
  fun p => if p = "guide.md" then some "guide-content" else none

/-- `success_count` increments exactly when `sync_repository` returned
`True`. -/
def isOkTrue : RepoOutcome → Bool
  | RepoOutcome.ok true => true
  | _ => false

/-- An outcome assignment where `repo-b` raises and every other repository
succeeds. -/
def outcomeC3 (r : String) : RepoOutcome :=
  if r = "repo-b" then RepoOutcome.raises else RepoOutcome.ok true

/-! ## Helper lemmas -/

/-- No allow-listed pattern can match an endpoint whose first character is a
slash: every pattern is anchored and starts with the literal `h` of
`https`. -/
theorem matchAtoms_apiBase_slash (s : List Char) :
    matchAtoms apiBasePat ('/' :: s) = none := by
  simp [apiBasePat, matchAtoms]

/-- An endpoint starting with `'/'` fails validation for every method. -/
theorem validate_head_slash (endpoint method : String) (t : List Char)
    (h : endpoint.data = '/' :: t) :
    validate_github_api_request endpoint method = false := by
  unfold validate_github_api_request
  rw [h]
  simp [matchUserPat, matchRepoPat, matchForksPat, matchPullsPat, matchDelRefPat,
    matchReposOwner, matchAtoms_apiBase_slash]

/-! ## C1 -/

/-- C1: for every endpoint/method pair that fails the five-pattern
allow-list, `github_api_request` returns the synthetic `(403, error)`
result and performs no network request, whatever the network oracle would
have answered. -/
theorem github_api_request_rejects_unlisted (net : Net) (endpoint method : String)
    (data : Option String)
    (h : validate_github_api_request endpoint method = false) :
    github_api_request net endpoint method data = ((403, "Endpoint not allowed"), 0) := by
  simp [github_api_request, h]

/-- Witness for C1 at the concrete pair (`GET`-only repo endpoint, `DELETE`). -/
theorem github_api_request_rejects_unlisted_witness :
    validate_github_api_request "https://api.github.com/repos/a/b" "DELETE" = false ∧
    github_api_request (fun _ _ _ => (200, "ok"))
      "https://api.github.com/repos/a/b" "DELETE" none
      = ((403, "Endpoint not allowed"), 0) :=
  ⟨by decide,
    github_api_request_rejects_unlisted (fun _ _ _ => (200, "ok"))
      "https://api.github.com/repos/a/b" "DELETE" none (by decide)⟩

/-! ## C10 -/

/-- C10: `delete_fork_branch` builds its endpoint without the `GITHUB_API`
base, so the anchored allow-list patterns (all starting with `https`) can
never match it: for every fork owner, repository and branch the call is
rejected locally with the synthetic 403, no network request happens, and
the function returns `false` (403 ≠ 204). -/
theorem delete_fork_branch_always_rejected (net : Net)
    (fork_owner repo_name branch_name : String) :
    delete_fork_branch net fork_owner repo_name branch_name = (false, 0) := by
  have hd : ("/repos/" ++ fork_owner ++ "/" ++ repo_name ++ "/git/refs/heads/"
        ++ branch_name).data
      = '/' :: ("repos/".data ++ fork_owner.data ++ "/".data ++ repo_name.data
        ++ "/git/refs/heads/".data ++ branch_name.data) := by
    simp [String.data_append]
  have hv := validate_head_slash
    ("/repos/" ++ fork_owner ++ "/" ++ repo_name ++ "/git/refs/heads/" ++ branch_name)
    "DELETE" _ hd
  simp [delete_fork_branch, github_api_request, hv]

/-! ## C6 -/

/-- C6: with no configured `files_to_sync` (an absent key yields the same
empty list through `config.get('files_to_sync', [])`), `sync_repository`
returns failure immediately: no fork check or creation, no clone, no
reconciliation, no branch, no pull request is attempted. -/
theorem sync_repository_no_files (env : SyncEnv) (repo_name : String)
    (dry_run : Bool) :
    sync_repository env repo_name [] dry_run = (false, []) := by
  simp [sync_repository]

/-! ## C4 -/

/-- C4: in non-dry-run mode, when the fork-existence check does not return
200 and the fork-creation POST returns a status other than 202 and 200,
`create_fork` reports `false` and `sync_repository` fails after the
fork-creation attempt, never attempting a clone (nor any later step). -/
theorem sync_repository_fork_creation_failure (env : SyncEnv) (repo_name : String)
    (files_to_sync : List FileRule)
    (hfiles : files_to_sync ≠ [])
    (hcheck : env.checkForkStatus ≠ 200)
    (h202 : env.createForkStatus ≠ 202) (h200 : env.createForkStatus ≠ 200) :
    create_fork env.createForkStatus = false ∧
    sync_repository env repo_name files_to_sync false
      = (false, [SyncEvent.forkChecked, SyncEvent.forkCreateAttempted]) ∧
    SyncEvent.cloneAttempted ∉ (sync_repository env repo_name files_to_sync false).2 := by
  have hcf : create_fork env.createForkStatus = false := by
    simp [create_fork, h202, h200]
  have hex : check_fork_exists env.checkForkStatus = false := by
    simp [check_fork_exists, hcheck]
  refine ⟨hcf, ?_, ?_⟩ <;>
    simp [sync_repository, hfiles, hcf, hex]

/-- Witness for C4: fork check answers 404, fork creation answers 500. -/
theorem sync_repository_fork_creation_failure_witness :
    create_fork envC4.createForkStatus = false ∧
    sync_repository envC4 "repo-a" [ruleC5] false
      = (false, [SyncEvent.forkChecked, SyncEvent.forkCreateAttempted]) ∧
    SyncEvent.cloneAttempted ∉ (sync_repository envC4 "repo-a" [ruleC5] false).2 :=
  sync_repository_fork_creation_failure envC4 "repo-a" [ruleC5]
    (by decide) (by decide) (by decide) (by decide)

/-! ## C5 -/

/-- C5: whenever `sync_repository` reaches reconciliation (the file list is
non-empty, the fork step did not fail, the clone succeeded) and the
changed-file list comes back empty, the repository is a success (`true`)
and neither a branch/commit/push nor a pull-request creation is attempted,
in either mode. -/
theorem sync_repository_all_up_to_date (env : SyncEnv) (repo_name : String)
    (files_to_sync : List FileRule) (dry_run : Bool)
    (hfiles : files_to_sync ≠ [])
    (hfork : dry_run = true ∨ check_fork_exists env.checkForkStatus = true
      ∨ create_fork env.createForkStatus = true)
    (hclone : env.cloneOk = true)
    (hchanged : (processFilesToSync env.sourceTree repo_name dry_run files_to_sync
      (clonedTree env dry_run)).1 = []) :
    (sync_repository env repo_name files_to_sync dry_run).1 = true ∧
    SyncEvent.branchCommitPushAttempted
      ∉ (sync_repository env repo_name files_to_sync dry_run).2 ∧
    SyncEvent.prCreateAttempted
      ∉ (sync_repository env repo_name files_to_sync dry_run).2 := by
  have hstep : (!dry_run && !check_fork_exists env.checkForkStatus
      && !create_fork env.createForkStatus) = false := by
    rcases hfork with h | h | h <;> simp [h]
  refine ⟨?_, ?_, ?_⟩ <;>
    simp [sync_repository, hfiles, hstep, hclone, hchanged] <;>
    rcases Bool.dichotomy dry_run with h | h <;>
    rcases Bool.dichotomy (check_fork_exists env.checkForkStatus) with h2 | h2 <;>
    simp [h, h2]

/-- Witness for C5: one rule whose source is missing, so reconciliation
changes nothing; the run succeeds with no branch and no PR. -/
theorem sync_repository_all_up_to_date_witness :
    (sync_repository envC5 "repo-a" [ruleC5] false).1 = true ∧
    SyncEvent.branchCommitPushAttempted
      ∉ (sync_repository envC5 "repo-a" [ruleC5] false).2 ∧
    SyncEvent.prCreateAttempted
      ∉ (sync_repository envC5 "repo-a" [ruleC5] false).2 :=
  sync_repository_all_up_to_date envC5 "repo-a" [ruleC5] false
    (by decide) (Or.inr (Or.inl (by decide))) rfl (by rfl)

/-! ## C3 -/

/-- The loop of `main` processes every repository in order and counts
exactly the `ok true` outcomes. -/
theorem runBatch_spec (outcome : String → RepoOutcome) (repos : List String) :
    (runBatch outcome repos).2 = repos ∧
    (runBatch outcome repos).1
      = (repos.filter (fun r => isOkTrue (outcome r))).length := by
  induction repos with
  | nil => simp [runBatch]
  | cons r rest ih =>
    rcases ih with ⟨ih2, ih1⟩
    cases h : outcome r with
    | ok b => cases b <;> simp [runBatch, h, ih2, ih1, List.filter, isOkTrue]
    | raises => simp [runBatch, h, ih2, ih1, List.filter, isOkTrue]

/-- C3: if processing repository `k` raises an unexpected exception, the
per-repository `except Exception` handler contains it: every repository
(including those after `k`) is still processed, the run completes, and the
final tally counts exactly the other repositories whose processing
succeeded (`k` itself contributes nothing). -/
theorem batch_isolation (outcome : String → RepoOutcome) (repos : List String)
    (k : String) (_hk : k ∈ repos) (hraise : outcome k = RepoOutcome.raises) :
    (runBatch outcome repos).2 = repos ∧
    (runBatch outcome repos).1
      = (repos.filter (fun r => isOkTrue (outcome r))).length ∧
    k ∉ repos.filter (fun r => isOkTrue (outcome r)) := by
  refine ⟨(runBatch_spec outcome repos).1, (runBatch_spec outcome repos).2, ?_⟩
  intro hmem
  have := List.of_mem_filter hmem
  rw [hraise] at this
  simp [isOkTrue] at this

/-- Witness for C3: three repositories, the middle one raises. -/
theorem batch_isolation_witness :
    (runBatch outcomeC3 ["repo-a", "repo-b", "repo-c"]).2
      = ["repo-a", "repo-b", "repo-c"] ∧
    (runBatch outcomeC3 ["repo-a", "repo-b", "repo-c"]).1
      = (["repo-a", "repo-b", "repo-c"].filter
          (fun r => isOkTrue (outcomeC3 r))).length ∧
    "repo-b" ∉ ["repo-a", "repo-b", "repo-c"].filter
      (fun r => isOkTrue (outcomeC3 r)) :=
  batch_isolation outcomeC3 ["repo-a", "repo-b", "repo-c"] "repo-b"
    (by decide) (by decide)

/-! ## C9 (corrected) -/

/-- Counterexample to C9 as stated: when the configuration supplies an
`exclude_repos` list (here `["repo-b"]`), the `['org-infra']` default of
`config.get` is not consulted, and `org-infra` — present in the manifest —
survives resolution and is passed to the per-repository processing. -/
theorem resolveRepositories_org_infra_cex :
    "org-infra" ∈ resolveRepositories ["org-infra", "repo-a"] none
      (some ["repo-b"]) := by decide

/-- C9 amended: `org-infra` is excluded by the default exclusion list, i.e.
whenever the configuration supplies no `exclude_repos` key; and it is also
excluded whenever a supplied `exclude_repos` list names it.  (A supplied
list that omits `org-infra` replaces the default, so it does not exclude
`org-infra` — see the counterexample.) -/
theorem resolveRepositories_org_infra_default (repositories : List String)
    (argsRepos : Option (List String)) :
    "org-infra" ∉ resolveRepositories repositories argsRepos none ∧
    ∀ ex : List String, "org-infra" ∈ ex →
      "org-infra" ∉ resolveRepositories repositories argsRepos (some ex) := by
  constructor
  · intro hmem
    have := List.of_mem_filter hmem
    simp at this
  · intro ex hex hmem
    have := List.of_mem_filter hmem
    simp at this
    exact this hex

/-- Witness for the amended C9. -/
theorem resolveRepositories_org_infra_default_witness :
    "org-infra" ∉ resolveRepositories ["org-infra", "repo-a"] none none ∧
    "org-infra" ∉ resolveRepositories ["org-infra", "repo-a"] none
      (some ["org-infra", "repo-b"]) :=
  ⟨(resolveRepositories_org_infra_default ["org-infra", "repo-a"] none).1,
    (resolveRepositories_org_infra_default ["org-infra", "repo-a"] none).2
      ["org-infra", "repo-b"] (by decide)⟩

/-! ## Reconciliation-loop characterisation -/

/-- Updating a tree at `d` changes nothing at `p ≠ d`. -/
theorem updateTree_ne (t : Tree) (d c p : String) (h : p ≠ d) :
    updateTree t d c p = t p := by
  simp [updateTree, h]

/-- `ruleChangesAt`, spelled out. -/
theorem ruleChangesAt_iff (src : Tree) (repo : String) (t : Tree) (r : FileRule)
    (p : String) :
    ruleChangesAt src repo t r p ↔
      ∃ c, src r.source = some c ∧ excludedB r repo = false ∧ destRel r = p
        ∧ t p ≠ some c := by
  cases hsrc : src r.source with
  | none => simp [ruleChangesAt, hsrc]
  | some c => simp [ruleChangesAt, hsrc]

/-- A rule with a missing source never witnesses a change. -/
theorem ruleChangesAt_not_of_missing (src : Tree) (repo : String) (t : Tree)
    (fc : FileRule) (p : String) (hsrc : src fc.source = none) :
    ¬ ruleChangesAt src repo t fc p := by
  simp [ruleChangesAt_iff, hsrc]

/-- A rule excluding the repository never witnesses a change. -/
theorem ruleChangesAt_not_of_excluded (src : Tree) (repo : String) (t : Tree)
    (fc : FileRule) (p : String) (hex : excludedB fc repo = true) :
    ¬ ruleChangesAt src repo t fc p := by
  simp [ruleChangesAt_iff, hex]

/-- A rule whose destination is byte-identical to its source never
witnesses a change. -/
theorem ruleChangesAt_not_of_uptodate (src : Tree) (repo : String) (t : Tree)
    (fc : FileRule) (p : String) (c : String) (hsrc : src fc.source = some c)
    (ht : t (destRel fc) = some c) :
    ¬ ruleChangesAt src repo t fc p := by
  rw [ruleChangesAt_iff]
  rintro ⟨c', hc', hexf, rfl, hne⟩
  rw [hsrc] at hc'
  cases hc'
  exact hne ht

/-- A rule with an existing source, not excluded, whose destination content
differs, witnesses a change at its destination. -/
theorem ruleChangesAt_head (src : Tree) (repo : String) (t : Tree)
    (fc : FileRule) (c : String) (hsrc : src fc.source = some c)
    (hex : excludedB fc repo = false) (hne : t (destRel fc) ≠ some c) :
    ruleChangesAt src repo t fc (destRel fc) := by
  rw [ruleChangesAt_iff]
  exact ⟨c, hsrc, hex, rfl, hne⟩

/-- Restricting an existential over a list to the tail when the head cannot
satisfy the predicate. -/
theorem exists_cons_of_not_head {α : Type} {l : List α} {a : α} {P : α → Prop}
    (hna : ¬ P a) : (∃ r ∈ a :: l, P r) ↔ ∃ r ∈ l, P r := by
  constructor
  · rintro ⟨r, hr, hc⟩
    rcases List.mem_cons.mp hr with rfl | hr'
    · exact absurd hc hna
    · exact ⟨r, hr', hc⟩
  · rintro ⟨r, hr, hc⟩
    exact ⟨r, List.mem_cons_of_mem _ hr, hc⟩

/-- `ruleChangesAt` reads the working tree only at `p`, so an update at a
different path is invisible. -/
theorem exists_ruleChangesAt_update (src : Tree) (repo : String) (t : Tree)
    (rest : List FileRule) (d c : String) (p : String) (hp : p ≠ d) :
    (∃ r ∈ rest, ruleChangesAt src repo (updateTree t d c) r p) ↔
      ∃ r ∈ rest, ruleChangesAt src repo t r p := by
  apply exists_congr
  intro r
  apply and_congr_right
  intro _
  rw [ruleChangesAt_iff, ruleChangesAt_iff, updateTree_ne t d c p hp]

/-- The central loop invariant: in both run modes, a path is in the
changed-file list exactly when some rule of the list witnesses a change for
it *against the original working tree*.  (In real mode the tree evolves as
files are copied, but the first rule to touch a path sees the original
content, and a copy only overwrites a path already recorded as changed.) -/
theorem mem_processFilesToSync (src : Tree) (repo : String) (dry : Bool)
    (rules : List FileRule) (t : Tree) (p : String) :
    p ∈ (processFilesToSync src repo dry rules t).1 ↔
      ∃ r ∈ rules, ruleChangesAt src repo t r p := by
  induction rules generalizing t with
  | nil => simp [processFilesToSync]
  | cons fc rest ih =>
    cases hsrc : src fc.source with
    | none =>
      have hstep : processFilesToSync src repo dry (fc :: rest) t
          = processFilesToSync src repo dry rest t := by
        simp [processFilesToSync, hsrc]
      rw [hstep, ih]
      exact (exists_cons_of_not_head (l := rest) (a := fc)
        (P := fun r => ruleChangesAt src repo t r p)
        (ruleChangesAt_not_of_missing src repo t fc p hsrc)).symm
    | some c =>
      cases hex : excludedB fc repo with
      | true =>
        have hstep : processFilesToSync src repo dry (fc :: rest) t
            = processFilesToSync src repo dry rest t := by
          simp [processFilesToSync, hsrc, hex]
        rw [hstep, ih]
        exact (exists_cons_of_not_head (l := rest) (a := fc)
          (P := fun r => ruleChangesAt src repo t r p)
          (ruleChangesAt_not_of_excluded src repo t fc p hex)).symm
      | false =>
        by_cases ht : t (destRel fc) = some c
        · have hstep : processFilesToSync src repo dry (fc :: rest) t
              = processFilesToSync src repo dry rest t := by
            cases dry <;>
              simp [processFilesToSync, hsrc, hex, sync_file, compare_files, ht]
          rw [hstep, ih]
          exact (exists_cons_of_not_head (l := rest) (a := fc)
            (P := fun r => ruleChangesAt src repo t r p)
            (ruleChangesAt_not_of_uptodate src repo t fc p c hsrc ht)).symm
        · have hchange : ruleChangesAt src repo t fc (destRel fc) :=
            ruleChangesAt_head src repo t fc c hsrc hex ht
          cases dry with
          | true =>
            have hstep : (processFilesToSync src repo true (fc :: rest) t).1
                = destRel fc :: (processFilesToSync src repo true rest t).1 := by
              rcases h2 : t (destRel fc) with _ | d
              · simp [processFilesToSync, hsrc, hex, h2]
              · have hd : d ≠ c := fun h => ht (by rw [h2, h])
                simp [processFilesToSync, hsrc, hex, h2, compare_files, hd]
            rw [hstep, List.mem_cons, ih]
            constructor
            · rintro (rfl | ⟨r, hr, hc⟩)
              · exact ⟨fc, List.mem_cons_self fc rest, hchange⟩
              · exact ⟨r, List.mem_cons_of_mem _ hr, hc⟩
            · rintro ⟨r, hr, hc⟩
              rcases List.mem_cons.mp hr with rfl | hr'
              · obtain ⟨c', -, -, hc3, -⟩ := (ruleChangesAt_iff src repo t r p).mp hc
                exact Or.inl hc3.symm
              · exact Or.inr ⟨r, hr', hc⟩
          | false =>
            have hstep : (processFilesToSync src repo false (fc :: rest) t).1
                = destRel fc :: (processFilesToSync src repo false rest
                    (updateTree t (destRel fc) c)).1 := by
              rcases h2 : t (destRel fc) with _ | d
              · simp [processFilesToSync, hsrc, hex, sync_file, compare_files, h2]
              · have hd : d ≠ c := fun h => ht (by rw [h2, h])
                simp [processFilesToSync, hsrc, hex, sync_file, compare_files, h2, hd]
            rw [hstep, List.mem_cons]
            by_cases hp : p = destRel fc
            · subst hp
              constructor
              · intro _
                exact ⟨fc, List.mem_cons_self fc rest, hchange⟩
              · intro _
                exact Or.inl rfl
            · rw [ih, exists_ruleChangesAt_update src repo t rest (destRel fc) c p hp]
              constructor
              · rintro (h | ⟨r, hr, hc⟩)
                · exact absurd h hp
                · exact ⟨r, List.mem_cons_of_mem _ hr, hc⟩
              · rintro ⟨r, hr, hc⟩
                rcases List.mem_cons.mp hr with rfl | hr'
                · obtain ⟨c', -, -, hc3, -⟩ := (ruleChangesAt_iff src repo t r p).mp hc
                  exact absurd hc3.symm hp
                · exact Or.inr ⟨r, hr', hc⟩

/-- Skipped rules (missing source or excluded repository) are invisible to
the loop: deleting one from anywhere in the rule list changes neither the
changed-file list nor the final tree, in either mode. -/
theorem processFilesToSync_skip_middle (src : Tree) (repo : String) (dry : Bool)
    (fc : FileRule) (h : src fc.source = none ∨ excludedB fc repo = true) :
    ∀ (l1 l2 : List FileRule) (t : Tree),
      processFilesToSync src repo dry (l1 ++ fc :: l2) t
        = processFilesToSync src repo dry (l1 ++ l2) t := by
  intro l1
  induction l1 with
  | nil =>
    intro l2 t
    rcases h with h | h
    · simp [processFilesToSync, h]
    · cases hsrc : src fc.source <;> simp [processFilesToSync, hsrc, h]
  | cons a l1 ih =>
    intro l2 t
    cases hsrc : src a.source <;>
      simp [processFilesToSync, hsrc, ih]

/-! ## C2 -/

/-- C2: for a fixed source tree, fixed working tree and fixed rule list,
the set of destination paths the dry run reports as changed (would add /
would update) is exactly the set the real run copies and reports as
changed; and a destination that is byte-identical to the source content of
every rule targeting it is classified up to date and appears in neither
list. -/
theorem dry_run_preview_faithful (src : Tree) (t : Tree) (repo : String)
    (rules : List FileRule) :
    (∀ p, p ∈ (processFilesToSync src repo false rules t).1 ↔
          p ∈ (processFilesToSync src repo true rules t).1) ∧
    (∀ p c, t p = some c →
      (∀ r ∈ rules, destRel r = p → src r.source = some c) →
      p ∉ (processFilesToSync src repo false rules t).1 ∧
      p ∉ (processFilesToSync src repo true rules t).1) := by
  constructor
  · intro p
    rw [mem_processFilesToSync, mem_processFilesToSync]
  · intro p c hp hall
    have hnone : ¬ ∃ r ∈ rules, ruleChangesAt src repo t r p := by
      rintro ⟨r, hr, hc⟩
      obtain ⟨c', hsrc', -, hdest', hne'⟩ := (ruleChangesAt_iff src repo t r p).mp hc
      have := hall r hr hdest'
      rw [this] at hsrc'
      cases hsrc'
      exact hne' hp
    constructor <;>
      · rw [mem_processFilesToSync]
        exact hnone

/-- Witness for C2: the up-to-date `CODEOWNERS` scenario — both change
lists agree and the byte-identical destination appears in neither. -/
theorem dry_run_preview_faithful_witness :
    ("CODEOWNERS" ∈ (processFilesToSync srcC2 "repo-a" false rulesC2 dstC2).1 ↔
      "CODEOWNERS" ∈ (processFilesToSync srcC2 "repo-a" true rulesC2 dstC2).1) ∧
    "CODEOWNERS" ∉ (processFilesToSync srcC2 "repo-a" false rulesC2 dstC2).1 :=
  ⟨(dry_run_preview_faithful srcC2 dstC2 "repo-a" rulesC2).1 "CODEOWNERS",
    ((dry_run_preview_faithful srcC2 dstC2 "repo-a" rulesC2).2 "CODEOWNERS" "canonical"
      rfl (by
        intro r hr hd
        simp [rulesC2] at hr
        subst hr
        rfl)).1⟩

/-! ## C7 (corrected) -/

/-- Counterexample to C7 as stated: the excluded rule's destination path
*does* appear in the changed-file list when a second, non-excluded rule
targets the same destination.  `ruleC7` excludes `repo-a` and its contents
differ from the (missing) destination, yet `docs/policy.md` is reported
changed — added by `ruleC7b` — in both modes. -/
theorem excluded_rule_dest_cex :
    excludedB ruleC7 "repo-a" = true ∧
    srcC7 ruleC7.source ≠ emptyTree (destRel ruleC7) ∧
    destRel ruleC7
      ∈ (processFilesToSync srcC7 "repo-a" true [ruleC7, ruleC7b] emptyTree).1 ∧
    destRel ruleC7
      ∈ (processFilesToSync srcC7 "repo-a" false [ruleC7, ruleC7b] emptyTree).1 := by
  refine ⟨by decide, by decide, by decide, by decide⟩

/-- C7 amended: a rule whose `exclude_repos` contains the current
repository is skipped outright — removing it changes nothing — and its
destination path appears in the changed-file list only if some *other*
rule targets the same path: when every rule targeting that path is
excluded, the path never appears, in both modes. -/
theorem excluded_rule_contributes_nothing (src : Tree) (repo : String)
    (dry : Bool) (fc : FileRule) (hex : excludedB fc repo = true)
    (l1 l2 : List FileRule) (t : Tree) :
    processFilesToSync src repo dry (l1 ++ fc :: l2) t
      = processFilesToSync src repo dry (l1 ++ l2) t ∧
    ((∀ r ∈ l1 ++ l2, destRel r = destRel fc → excludedB r repo = true) →
      destRel fc ∉ (processFilesToSync src repo dry (l1 ++ fc :: l2) t).1) := by
  have hskip := processFilesToSync_skip_middle src repo dry fc (Or.inr hex) l1 l2 t
  refine ⟨hskip, ?_⟩
  intro hall hmem
  rw [hskip, mem_processFilesToSync] at hmem
  obtain ⟨r, hr, hc⟩ := hmem
  obtain ⟨c', -, hexr, hdest, -⟩ := (ruleChangesAt_iff src repo t r (destRel fc)).mp hc
  rw [hall r hr hdest] at hexr
  cases hexr

/-- Witness for the amended C7: with the excluded rule alone, the loop
result is that of the empty rule list and the destination is untouched. -/
theorem excluded_rule_contributes_nothing_witness :
    processFilesToSync srcC7 "repo-a" true ([] ++ ruleC7 :: []) emptyTree
      = processFilesToSync srcC7 "repo-a" true ([] ++ []) emptyTree ∧
    destRel ruleC7
      ∉ (processFilesToSync srcC7 "repo-a" true ([] ++ ruleC7 :: []) emptyTree).1 :=
  ⟨(excluded_rule_contributes_nothing srcC7 "repo-a" true ruleC7 (by decide)
      [] [] emptyTree).1,
    (excluded_rule_contributes_nothing srcC7 "repo-a" true ruleC7 (by decide)
      [] [] emptyTree).2 (by intro r hr; simp at hr)⟩

/-! ## C8 (corrected) -/

/-- Counterexample to C8 as stated: the missing-source rule's destination
path *does* appear in the changed-file list when a second rule with an
existing source targets the same destination.  `ruleC8`'s source is absent
from `srcC8`, yet `docs/guide.md` is reported changed — added by
`ruleC8b` — in both modes. -/
theorem missing_source_dest_cex :
    srcC8 ruleC8.source = none ∧
    destRel ruleC8
      ∈ (processFilesToSync srcC8 "repo-a" true [ruleC8, ruleC8b] emptyTree).1 ∧
    destRel ruleC8
      ∈ (processFilesToSync srcC8 "repo-a" false [ruleC8, ruleC8b] emptyTree).1 := by
  refine ⟨by decide, by decide, by decide⟩

/-- C8 amended: a rule whose resolved source path is missing is skipped
(logged, not fatal) — removing it changes nothing — and its destination
path appears in the changed-file list only if some *other* rule targets
the same path: when every rule targeting that path has a missing source,
the path never appears, in both modes. -/
theorem missing_source_contributes_nothing (src : Tree) (repo : String)
    (dry : Bool) (fc : FileRule) (hmiss : src fc.source = none)
    (l1 l2 : List FileRule) (t : Tree) :
    processFilesToSync src repo dry (l1 ++ fc :: l2) t
      = processFilesToSync src repo dry (l1 ++ l2) t ∧
    ((∀ r ∈ l1 ++ l2, destRel r = destRel fc → src r.source = none) →
      destRel fc ∉ (processFilesToSync src repo dry (l1 ++ fc :: l2) t).1) := by
  have hskip := processFilesToSync_skip_middle src repo dry fc (Or.inl hmiss) l1 l2 t
  refine ⟨hskip, ?_⟩
  intro hall hmem
  rw [hskip, mem_processFilesToSync] at hmem
  obtain ⟨r, hr, hc⟩ := hmem
  obtain ⟨c', hsrc', -, hdest, -⟩ := (ruleChangesAt_iff src repo t r (destRel fc)).mp hc
  rw [hall r hr hdest] at hsrc'
  cases hsrc'

/-- Witness for the amended C8: with the missing-source rule alone, the
loop result is that of the empty rule list and the destination is
untouched. -/
theorem missing_source_contributes_nothing_witness :
    processFilesToSync srcC8 "repo-a" false ([] ++ ruleC8 :: []) emptyTree
      = processFilesToSync srcC8 "repo-a" false ([] ++ []) emptyTree ∧
    destRel ruleC8
      ∉ (processFilesToSync srcC8 "repo-a" false ([] ++ ruleC8 :: []) emptyTree).1 :=
  ⟨(missing_source_contributes_nothing srcC8 "repo-a" false ruleC8 (by decide)
      [] [] emptyTree).1,
    (missing_source_contributes_nothing srcC8 "repo-a" false ruleC8 (by decide)
      [] [] emptyTree).2 (by intro r hr; simp at hr)⟩

end OrgInfra
